import Mathlib

/-!
Verification of the pipeline-parallel inference coordination core of the
formation repository, embedded shallowly from
`form-inference/src/worker.py` (`run_worker`, and its duplicate
`workers/tiny/gpt2_worker.py` `GPT2Worker.run`).

The development covers:
* the layer partition computed at worker.py lines 34-39;
* the UTF-8 text framing used between the final rank and rank 0
  (worker.py lines 123-133 encode, lines 79-85 decode), modelling
  Python's strict `str.encode("utf-8")` / `bytes.decode("utf-8")`;
* the per-rank protocol step sequence of `run_worker`'s try body
  (sends, receives, buffer allocations, compute, generate, decode),
  together with the `try/finally` control flow around it;
* the dataflow of the pipeline (interior forwarding, final-rank
  generation) over an abstract model-shard collaborator.

Machine integers do not overflow in any modelled computation (layer
counts, ranks and byte values are tiny), so Nat is used throughout.
-/

namespace Formation

/-- A layer range [start_layer, end_layer) as computed per rank in
`run_worker` (worker.py lines 36-39). -/
structure LayerRange where
  start_layer : Nat
  end_layer : Nat
deriving DecidableEq

/-- worker.py line 35: `layers_per_node = total_layers // world_size`
(Python floor division on nonnegative ints = Nat division). -/
def layers_per_node (total_layers world_size : Nat) : Nat :=
  total_layers / world_size

/-- worker.py lines 36-39, the range computed when `world_size > 0`:
`start_layer = rank * layers_per_node`;
`end_layer = start_layer + layers_per_node if rank < world_size - 1 else total_layers`. -/
def partRange (total_layers world_size rank : Nat) : LayerRange :=
  { start_layer := rank * layers_per_node total_layers world_size,
    end_layer :=
      if rank < world_size - 1 then
        rank * layers_per_node total_layers world_size +
          layers_per_node total_layers world_size
      else total_layers }

/-- The partition computation of worker.py lines 35-39.  When
`world_size = 0`, line 35 raises an (unhandled) `ZeroDivisionError` in
Python, modelled as `none`; otherwise the `LayerRange` of `partRange`
is produced.  No other validation occurs in the code. -/
def partition (total_layers world_size rank : Nat) : Option LayerRange :=
  if world_size = 0 then none
  else some (partRange total_layers world_size rank)

/-- Modelled from the spec (§4.1): `layers_per_node = total_layers div
world_size`; `start = rank * layers_per_node`; `end = start +
layers_per_node` for every rank except the last (`world_size - 1`),
where `end = total_layers`.  Used only to compare the code's
computation against the spec's algorithm. -/
def partitionSpec (total_layers world_size rank : Nat) : LayerRange :=
  { start_layer := rank * (total_layers / world_size),
    end_layer :=
      if rank = world_size - 1 then total_layers
      else rank * (total_layers / world_size) + total_layers / world_size }

lemma lpn_pos {tl ws : Nat} (h1 : 0 < ws) (h2 : ws ≤ tl) :
    0 < layers_per_node tl ws := by
  have h := (Nat.one_le_div_iff h1).mpr h2
  simpa [layers_per_node] using h

lemma mul_lpn_le {tl ws : Nat} : ws * layers_per_node tl ws ≤ tl := by
  rw [Nat.mul_comm]
  exact Nat.div_mul_le_self tl ws

lemma partRange_start (tl ws r : Nat) :
    (partRange tl ws r).start_layer = r * layers_per_node tl ws := rfl

lemma partRange_end_of_lt {ws r : Nat} (tl : Nat) (hr : r < ws - 1) :
    (partRange tl ws r).end_layer =
      r * layers_per_node tl ws + layers_per_node tl ws := by
  simp [partRange, hr]

lemma partRange_end_of_last {ws r : Nat} (tl : Nat) (hr : ¬ r < ws - 1) :
    (partRange tl ws r).end_layer = tl := by
  simp [partRange, hr]

lemma partRange_end_le_start (tl ws : Nat) {r s : Nat} (hrs : r < s)
    (hs : s < ws) :
    (partRange tl ws r).end_layer ≤ (partRange tl ws s).start_layer := by
  have hr1 : r < ws - 1 := by omega
  rw [partRange_end_of_lt tl hr1, partRange_start]
  calc r * layers_per_node tl ws + layers_per_node tl ws
      = (r + 1) * layers_per_node tl ws := (Nat.succ_mul r _).symm
    _ ≤ s * layers_per_node tl ws := Nat.mul_le_mul_right _ (by omega)

lemma partRange_end_le {tl ws r : Nat} (hr : r < ws) :
    (partRange tl ws r).end_layer ≤ tl := by
  by_cases hc : r < ws - 1
  · rw [partRange_end_of_lt tl hc]
    calc r * layers_per_node tl ws + layers_per_node tl ws
        = (r + 1) * layers_per_node tl ws := (Nat.succ_mul r _).symm
      _ ≤ ws * layers_per_node tl ws := Nat.mul_le_mul_right _ (by omega)
      _ ≤ tl := mul_lpn_le
  · rw [partRange_end_of_last tl hc]

/-- C1: for `total_layers ≥ world_size ≥ 1`, the per-rank layer ranges of
worker.py lines 35-39 are contiguous (each rank's start equals the
previous rank's end), every range is non-empty, any two distinct ranks'
ranges are disjoint, and every layer index in `[0, total_layers)` lies in
exactly one rank's range. -/
theorem c1_partition_ranges (tl ws : Nat) (h1 : 1 ≤ ws) (h2 : ws ≤ tl) :
    (∀ r, r + 1 < ws →
        (partRange tl ws (r + 1)).start_layer = (partRange tl ws r).end_layer) ∧
    (∀ r, r < ws →
        (partRange tl ws r).start_layer < (partRange tl ws r).end_layer) ∧
    (∀ r s, r < ws → s < ws → r ≠ s → ∀ i,
        (partRange tl ws r).start_layer ≤ i → i < (partRange tl ws r).end_layer →
        ¬ ((partRange tl ws s).start_layer ≤ i ∧
            i < (partRange tl ws s).end_layer)) ∧
    (∀ i, i < tl → ∃! r, r < ws ∧
        (partRange tl ws r).start_layer ≤ i ∧
        i < (partRange tl ws r).end_layer) := by
  have hws : 0 < ws := h1
  have hLpos : 0 < layers_per_node tl ws := lpn_pos hws h2
  refine ⟨?_, ?_, ?_, ?_⟩
  · intro r hr
    have hr1 : r < ws - 1 := by omega
    rw [partRange_start, partRange_end_of_lt tl hr1, Nat.succ_mul]
  · intro r hr
    by_cases hc : r < ws - 1
    · rw [partRange_start, partRange_end_of_lt tl hc]
      omega
    · rw [partRange_start, partRange_end_of_last tl hc]
      have hrr : r = ws - 1 := by omega
      have hstep : r * layers_per_node tl ws + layers_per_node tl ws ≤ tl := by
        calc r * layers_per_node tl ws + layers_per_node tl ws
            = (r + 1) * layers_per_node tl ws := (Nat.succ_mul r _).symm
          _ = ws * layers_per_node tl ws := by rw [hrr]; congr 1; omega
          _ ≤ tl := mul_lpn_le
      omega
  · intro r s hr hs hne i hri hri2 hcontra
    obtain ⟨hsi, hsi2⟩ := hcontra
    rcases Nat.lt_or_ge r s with hlt | hge
    · have hle := partRange_end_le_start tl ws hlt hs
      omega
    · have hlt : s < r := by omega
      have hle := partRange_end_le_start tl ws hlt hr
      omega
  · intro i hi
    by_cases hc : i / layers_per_node tl ws < ws - 1
    · refine ⟨i / layers_per_node tl ws, ⟨by omega, ?_, ?_⟩, ?_⟩
      · rw [partRange_start]
        exact Nat.div_mul_le_self i _
      · rw [partRange_end_of_lt tl hc, ← Nat.succ_mul]
        exact (Nat.div_lt_iff_lt_mul hLpos).mp (Nat.lt_succ_self _)
      · intro y hy
        obtain ⟨hy1, hy2, hy3⟩ := hy
        have hx1 : (partRange tl ws (i / layers_per_node tl ws)).start_layer ≤ i :=
          Nat.div_mul_le_self i _
        have hx2 : i < (partRange tl ws (i / layers_per_node tl ws)).end_layer := by
          rw [partRange_end_of_lt tl hc, ← Nat.succ_mul]
          exact (Nat.div_lt_iff_lt_mul hLpos).mp (Nat.lt_succ_self _)
        by_contra hne
        rcases Nat.lt_or_ge y (i / layers_per_node tl ws) with hlt | hge
        · have hle := partRange_end_le_start tl ws hlt (by omega)
          omega
        · have hlt : i / layers_per_node tl ws < y := by omega
          have hle := partRange_end_le_start tl ws hlt hy1
          omega
    · refine ⟨ws - 1, ⟨by omega, ?_, ?_⟩, ?_⟩
      · rw [partRange_start]
        exact (Nat.le_div_iff_mul_le hLpos).mp (Nat.le_of_not_lt hc)
      · rw [partRange_end_of_last tl (by omega)]
        exact hi
      · intro y hy
        obtain ⟨hy1, hy2, hy3⟩ := hy
        have hx1 : (partRange tl ws (ws - 1)).start_layer ≤ i :=
          (partRange_start tl ws (ws - 1)) ▸
            (Nat.le_div_iff_mul_le hLpos).mp (Nat.le_of_not_lt hc)
        have hx2 : i < (partRange tl ws (ws - 1)).end_layer := by
          rw [partRange_end_of_last tl (by omega)]
          exact hi
        by_contra hne
        have hlt : y < ws - 1 := by omega
        have hle := partRange_end_le_start tl ws hlt (by omega)
        omega

/-- Witness for C1 at `total_layers = 12`, `world_size = 3`. -/
theorem c1_partition_ranges_witness :
    (1 ≤ 3 ∧ 3 ≤ 12) ∧
    ((∀ r, r + 1 < 3 →
        (partRange 12 3 (r + 1)).start_layer = (partRange 12 3 r).end_layer) ∧
    (∀ r, r < 3 →
        (partRange 12 3 r).start_layer < (partRange 12 3 r).end_layer) ∧
    (∀ r s, r < 3 → s < 3 → r ≠ s → ∀ i,
        (partRange 12 3 r).start_layer ≤ i → i < (partRange 12 3 r).end_layer →
        ¬ ((partRange 12 3 s).start_layer ≤ i ∧
            i < (partRange 12 3 s).end_layer)) ∧
    (∀ i, i < 12 → ∃! r, r < 3 ∧
        (partRange 12 3 r).start_layer ≤ i ∧
        i < (partRange 12 3 r).end_layer)) :=
  ⟨⟨by decide, by decide⟩, c1_partition_ranges 12 3 (by decide) (by decide)⟩

/-- C2: the code's partition computation agrees with the spec's algorithm
(§4.1) on every in-range rank, and yields the spec's Scenario A ranges
`[0,4) [4,8) [8,12)` for `total_layers=12, world_size=3` and Scenario B
ranges `[0,3) [3,6) [6,10)` for `total_layers=10, world_size=3`. -/
theorem c2_partition_algorithm :
    (∀ tl ws rank, rank < ws →
        partition tl ws rank = some (partitionSpec tl ws rank)) ∧
    (partition 12 3 0 = some ⟨0, 4⟩ ∧ partition 12 3 1 = some ⟨4, 8⟩ ∧
      partition 12 3 2 = some ⟨8, 12⟩) ∧
    (partition 10 3 0 = some ⟨0, 3⟩ ∧ partition 10 3 1 = some ⟨3, 6⟩ ∧
      partition 10 3 2 = some ⟨6, 10⟩) := by
  refine ⟨?_, ⟨by decide, by decide, by decide⟩, ⟨by decide, by decide, by decide⟩⟩
  intro tl ws rank hr
  have hws : ws ≠ 0 := by omega
  rw [partition, if_neg hws]
  unfold partRange partitionSpec layers_per_node
  by_cases hc : rank < ws - 1
  · have hne : ¬ rank = ws - 1 := by omega
    simp [hc, hne]
  · have heq : rank = ws - 1 := by omega
    simp [hc, heq]

/-- Witness for C2's general conjunct at `total_layers = 12`,
`world_size = 3`, `rank = 1`. -/
theorem c2_partition_algorithm_witness :
    (1 < 3) ∧ partition 12 3 1 = some (partitionSpec 12 3 1) :=
  ⟨by decide, c2_partition_algorithm.1 12 3 1 (by decide)⟩

/-- Counterexample to C6: at `total_layers = 10 < world_size = 20`,
`rank = 0`, the code raises no error at all; it produces the empty layer
range `[0, 0)`. -/
theorem c6_no_config_error :
    partition 10 20 0 = some ⟨0, 0⟩ ∧ partition 10 20 0 ≠ none := by
  constructor
  · decide
  · decide

/-- C6 (amended): when `world_size = 0` the partition computation fails —
in the code with an unhandled `ZeroDivisionError` from
`total_layers // 0`, not a `ConfigError` — and when
`0 < world_size` and `total_layers < world_size` no error is raised: the
code produces the empty range `[0, 0)` for every rank below
`world_size - 1` and `[0, total_layers)` for the last rank. -/
theorem c6_degenerate_partition (tl ws r : Nat) :
    partition tl 0 r = none ∧
    (0 < ws → tl < ws → r < ws - 1 → partition tl ws r = some ⟨0, 0⟩) ∧
    (0 < ws → tl < ws → partition tl ws (ws - 1) = some ⟨0, tl⟩) := by
  refine ⟨rfl, ?_, ?_⟩
  · intro hws htl hr
    have hzero : layers_per_node tl ws = 0 := Nat.div_eq_of_lt htl
    rw [partition, if_neg (by omega)]
    rw [partRange] at *
    simp [hzero, hr]
  · intro hws htl
    have hzero : layers_per_node tl ws = 0 := Nat.div_eq_of_lt htl
    rw [partition, if_neg (by omega)]
    rw [partRange]
    simp [hzero]

/-- Witness for C6 (amended) at `total_layers = 10`, `world_size = 20`,
`rank = 0`. -/
theorem c6_degenerate_partition_witness :
    partition 10 0 0 = none ∧
    (0 < 20 ∧ 10 < 20 ∧ 0 < 20 - 1 ∧ partition 10 20 0 = some ⟨0, 0⟩) ∧
    (partition 10 20 (20 - 1) = some ⟨0, 10⟩) :=
  ⟨(c6_degenerate_partition 10 0 0).1,
   ⟨by decide, by decide, by decide,
    (c6_degenerate_partition 10 20 0).2.1 (by decide) (by decide) (by decide)⟩,
   (c6_degenerate_partition 10 20 0).2.2 (by decide) (by decide)⟩

/-!
Text framing codec.  worker.py line 127-129 encodes the generated
sentence with Python `str.encode("utf-8")` and line 132 sends the byte
count (`encoded_text.shape[0]`) ahead of the bytes; worker.py line 85
decodes the received byte buffer with Python `bytes.decode("utf-8")`
(strict mode).  Bytes are modelled as `Nat` values below 256 and a
Python `str` as a `List Char` of Unicode scalar values.
-/

/-- The UTF-8 byte sequence of one Unicode scalar value `v`, as produced
by Python's UTF-8 encoder (1 to 4 bytes by range). -/
def utf8Bytes (v : Nat) : List Nat :=
  if v < 0x80 then [v]
  else if v < 0x800 then [0xC0 + v / 64, 0x80 + v % 64]
  else if v < 0x10000 then
    [0xE0 + v / 4096, 0x80 + v / 64 % 64, 0x80 + v % 64]
  else
    [0xF0 + v / 262144, 0x80 + v / 4096 % 64, 0x80 + v / 64 % 64,
      0x80 + v % 64]

/-- UTF-8 bytes of one character of the generated sentence. -/
def utf8EncodeChar (c : Char) : List Nat :=
  utf8Bytes c.toNat

/-- Python `text.encode("utf-8")`: concatenation of the per-character
byte sequences. -/
def utf8Encode (text : List Char) : List Nat :=
  text.flatMap utf8EncodeChar

/-- One step of Python's strict UTF-8 decoder: parses the leading
character of a byte list (1 to 4 bytes), rejecting stray continuation
bytes, truncated sequences, non-shortest forms, surrogate code points
and values above 0x10FFFF. -/
def utf8DecodeStep : List Nat → Option (Char × List Nat)
  | [] => none
  | b :: rest =>
    if b < 0x80 then some (Char.ofNat b, rest)
    else if b < 0xC2 then none
    else if b < 0xE0 then
      match rest with
      | b1 :: rest2 =>
        if 0x80 ≤ b1 ∧ b1 < 0xC0 then
          some (Char.ofNat ((b - 0xC0) * 64 + (b1 - 0x80)), rest2)
        else none
      | [] => none
    else if b < 0xF0 then
      match rest with
      | b1 :: b2 :: rest3 =>
        if 0x80 ≤ b1 ∧ b1 < 0xC0 ∧ 0x80 ≤ b2 ∧ b2 < 0xC0 ∧
            (b = 0xE0 → 0xA0 ≤ b1) ∧ (b = 0xED → b1 < 0xA0) then
          some (Char.ofNat ((b - 0xE0) * 4096 + (b1 - 0x80) * 64 + (b2 - 0x80)),
            rest3)
        else none
      | _ => none
    else if b < 0xF5 then
      match rest with
      | b1 :: b2 :: b3 :: rest4 =>
        if 0x80 ≤ b1 ∧ b1 < 0xC0 ∧ 0x80 ≤ b2 ∧ b2 < 0xC0 ∧
            0x80 ≤ b3 ∧ b3 < 0xC0 ∧
            (b = 0xF0 → 0x90 ≤ b1) ∧ (b = 0xF4 → b1 < 0x90) then
          some (Char.ofNat ((b - 0xF0) * 262144 + (b1 - 0x80) * 4096 +
              (b2 - 0x80) * 64 + (b3 - 0x80)), rest4)
        else none
      | _ => none
    else none

/-- Iterated decoding.  The fuel only bounds the number of characters;
since every step of `utf8DecodeStep` consumes at least one byte, fuel
equal to the byte count always suffices, so the `0` arm is unreachable
for the fuel chosen in `utf8Decode`. -/
def utf8DecodeLoop : Nat → List Nat → Option (List Char)
  | _, [] => some []
  | 0, _ :: _ => none
  | fuel + 1, b :: rest =>
    match utf8DecodeStep (b :: rest) with
    | some (c, remaining) =>
      (utf8DecodeLoop fuel remaining).map (fun cs => c :: cs)
    | none => none

/-- Python `bytes.decode("utf-8")` in strict mode; `none` models a
`UnicodeDecodeError`. -/
def utf8Decode (l : List Nat) : Option (List Char) :=
  utf8DecodeLoop l.length l

/-- worker.py lines 126-133 at the final rank: the text is converted to
its UTF-8 bytes and the exact byte count (`encoded_text.shape[0]`) is
the scalar sent ahead of the payload. -/
def encodeText (text : List Char) : Nat × List Nat :=
  ((utf8Encode text).length, utf8Encode text)

/-- worker.py lines 79-85 at rank 0: the received byte buffer (allocated
with exactly the received length) is decoded as UTF-8. -/
def decodeText (buf : List Nat) : Option (List Char) :=
  utf8Decode buf

lemma utf8DecodeStep_utf8Bytes (v : Nat)
    (hvalid : v < 0xd800 ∨ (0xe000 ≤ v ∧ v < 0x110000)) (rest : List Nat) :
    utf8DecodeStep (utf8Bytes v ++ rest) = some (Char.ofNat v, rest) := by
  by_cases h1 : v < 0x80
  · rw [utf8Bytes, if_pos h1]
    simp only [List.cons_append, List.nil_append, utf8DecodeStep]
    rw [if_pos h1]
  · by_cases h2 : v < 0x800
    · rw [utf8Bytes, if_neg h1, if_pos h2]
      simp only [List.cons_append, List.nil_append, utf8DecodeStep]
      rw [if_neg (by omega), if_neg (by omega), if_pos (by omega),
        if_pos (by omega)]
      have hx : (0xC0 + v / 64 - 0xC0) * 64 + (0x80 + v % 64 - 0x80) = v := by
        omega
      rw [hx]
    · by_cases h3 : v < 0x10000
      · rw [utf8Bytes, if_neg h1, if_neg h2, if_pos h3]
        simp only [List.cons_append, List.nil_append, utf8DecodeStep]
        rw [if_neg (by omega), if_neg (by omega), if_neg (by omega),
          if_pos (by omega), if_pos (by omega)]
        have hx : (0xE0 + v / 4096 - 0xE0) * 4096 +
            (0x80 + v / 64 % 64 - 0x80) * 64 + (0x80 + v % 64 - 0x80) = v := by
          omega
        rw [hx]
      · have h4 : v < 0x110000 := by omega
        rw [utf8Bytes, if_neg h1, if_neg h2, if_neg h3]
        simp only [List.cons_append, List.nil_append, utf8DecodeStep]
        rw [if_neg (by omega), if_neg (by omega), if_neg (by omega),
          if_neg (by omega), if_pos (by omega), if_pos (by omega)]
        have hx : (0xF0 + v / 262144 - 0xF0) * 262144 +
            (0x80 + v / 4096 % 64 - 0x80) * 4096 +
            (0x80 + v / 64 % 64 - 0x80) * 64 + (0x80 + v % 64 - 0x80) = v := by
          omega
        rw [hx]

lemma utf8DecodeStep_encodeChar (c : Char) (rest : List Nat) :
    utf8DecodeStep (utf8EncodeChar c ++ rest) = some (c, rest) := by
  have hvalid : c.toNat < 0xd800 ∨ (0xe000 ≤ c.toNat ∧ c.toNat < 0x110000) := by
    rcases c.valid with h | h
    · exact Or.inl h
    · exact Or.inr h
  rw [utf8EncodeChar, utf8DecodeStep_utf8Bytes c.toNat hvalid rest,
    Char.ofNat_toNat]

lemma utf8EncodeChar_ne_nil (c : Char) : utf8EncodeChar c ≠ [] := by
  rw [utf8EncodeChar, utf8Bytes]
  split
  · simp
  · split
    · simp
    · split
      · simp
      · simp

lemma utf8DecodeLoop_encode (cs : List Char) :
    ∀ fuel : Nat, cs.length ≤ fuel →
      utf8DecodeLoop fuel (utf8Encode cs) = some cs := by
  induction cs with
  | nil =>
    intro fuel _
    rw [show utf8Encode [] = [] from rfl]
    cases fuel <;> rfl
  | cons c cs ih =>
    intro fuel hfuel
    obtain ⟨f, rfl⟩ : ∃ f, fuel = f + 1 := by
      cases fuel with
      | zero => simp at hfuel
      | succ f => exact ⟨f, rfl⟩
    have henc : utf8Encode (c :: cs) = utf8EncodeChar c ++ utf8Encode cs := by
      rw [utf8Encode, List.flatMap_cons]
      rfl
    obtain ⟨b, bs, hb⟩ : ∃ b bs, utf8EncodeChar c = b :: bs := by
      cases hE : utf8EncodeChar c with
      | nil => exact absurd hE (utf8EncodeChar_ne_nil c)
      | cons b bs => exact ⟨b, bs, rfl⟩
    rw [henc, hb, List.cons_append, utf8DecodeLoop]
    rw [show (b :: (bs ++ utf8Encode cs)) = utf8EncodeChar c ++ utf8Encode cs by
      rw [hb, List.cons_append]]
    rw [utf8DecodeStep_encodeChar c (utf8Encode cs)]
    have hf : cs.length ≤ f := by
      simp only [List.length_cons] at hfuel
      omega
    simp [ih f hf]

lemma length_le_utf8Encode_length (cs : List Char) :
    cs.length ≤ (utf8Encode cs).length := by
  induction cs with
  | nil => simp [utf8Encode]
  | cons c cs ih =>
    have henc : utf8Encode (c :: cs) = utf8EncodeChar c ++ utf8Encode cs := by
      rw [utf8Encode, List.flatMap_cons]
      rfl
    rw [henc, List.length_append, List.length_cons]
    have h1 : 1 ≤ (utf8EncodeChar c).length := by
      cases hE : utf8EncodeChar c with
      | nil => exact absurd hE (utf8EncodeChar_ne_nil c)
      | cons b bs => simp
    omega

/-- C3: for every sequence of Unicode scalar values (every valid Python
string), including the empty string and strings with multi-byte code
points, the rank-0 decode of the final-rank encoding returns the original
text, and the scalar sent ahead of the payload equals the exact UTF-8
byte count of the text. -/
theorem c3_text_codec_roundtrip (text : List Char) :
    decodeText (encodeText text).2 = some text ∧
    (encodeText text).1 = (encodeText text).2.length := by
  constructor
  · rw [decodeText, encodeText, utf8Decode]
    exact utf8DecodeLoop_encode text _ (length_le_utf8Encode_length text)
  · rfl

/-!
Protocol step model.  Each `dist.send`, `dist.recv`, `torch.zeros`
allocation, layer-loop, `model.generate`, encode and decode of
`run_worker`'s try body is translated in source order into one `Step`.
Tensor payloads are represented by their shapes; 1-D int64 vectors
(shape descriptors and the text-length scalar) by their element lists.
The hidden-state shape at rank 0 is `[1, seqLen, embd]` (batch 1 from
tokenizing one string, `embd` the model's embedding width) and the
token-id shape is `[1, seqLen]`; an interior or final rank sees the
shapes `[h0, h1, h2]` and `[i0, i1]` it received, `inLen` is the text
length received by rank 0 and `outLen` the byte count sent by the final
rank. -/
inductive Step where
  | sendVec : Nat → List Nat → Step
  | sendTensor : Nat → List Nat → Step
  | recvVec : Nat → List Nat → Step
  | allocTensor : List Nat → Step
  | recvTensor : Nat → List Nat → Step
  | computeLayers : Step
  | generateStep : Step
  | encodeStep : Step
  | decodeStep : Step
  | destroyGroup : Step
deriving DecidableEq

/-- The ordered protocol steps of `run_worker`'s try body (worker.py
lines 50-146) for one rank: the `if rank == 0` branch (lines 50-85),
else the receive/compute steps of lines 87-109 followed by either the
final-rank branch (lines 110-133, when `rank == world_size - 1`) or the
forwarding branch (lines 134-146). -/
def runSteps (rank ws seqLen embd h0 h1 h2 i0 i1 inLen outLen : Nat) :
    List Step :=
  if rank = 0 then
    [Step.computeLayers,
     Step.sendVec 1 [1, seqLen, embd], Step.sendTensor 1 [1, seqLen, embd],
     Step.sendVec 1 [1, seqLen], Step.sendTensor 1 [1, seqLen],
     Step.recvVec (ws - 1) [inLen], Step.allocTensor [inLen],
     Step.recvTensor (ws - 1) [inLen], Step.decodeStep]
  else
    [Step.recvVec (rank - 1) [h0, h1, h2], Step.allocTensor [h0, h1, h2],
     Step.recvTensor (rank - 1) [h0, h1, h2],
     Step.recvVec (rank - 1) [i0, i1], Step.allocTensor [i0, i1],
     Step.recvTensor (rank - 1) [i0, i1],
     Step.computeLayers] ++
    (if rank = ws - 1 then
      [Step.generateStep, Step.encodeStep,
       Step.sendVec 0 [outLen], Step.sendTensor 0 [outLen]]
    else
      [Step.sendVec (rank + 1) [h0, h1, h2],
       Step.sendTensor (rank + 1) [h0, h1, h2],
       Step.sendVec (rank + 1) [i0, i1],
       Step.sendTensor (rank + 1) [i0, i1]])

/-- Shape-framing discipline over a step list: every payload send
directly follows the send of its shape descriptor to the same peer with
the payload's exact shape, and every payload receive directly follows
the full receipt of a shape descriptor from the same peer and the
allocation of a buffer of exactly the declared shape.  Non-transfer
steps are skipped; any other transfer pattern violates the discipline. -/
def wellFramed : List Step → Prop
  | [] => True
  | Step.sendVec d v :: Step.sendTensor e sh :: rest =>
      d = e ∧ v = sh ∧ wellFramed rest
  | Step.recvVec s v :: Step.allocTensor sh :: Step.recvTensor t sh2 :: rest =>
      s = t ∧ sh = v ∧ sh2 = v ∧ wellFramed rest
  | Step.computeLayers :: rest => wellFramed rest
  | Step.generateStep :: rest => wellFramed rest
  | Step.encodeStep :: rest => wellFramed rest
  | Step.decodeStep :: rest => wellFramed rest
  | Step.destroyGroup :: rest => wellFramed rest
  | _ => False

/-- The lengths of the shape-descriptor vectors sent or received, in
step order. -/
def descLens : List Step → List Nat
  | [] => []
  | Step.sendVec _ v :: rest => v.length :: descLens rest
  | Step.recvVec _ v :: rest => v.length :: descLens rest
  | _ :: rest => descLens rest

/-- C9: at every rank the transfers of `run_worker` are shape-framed —
each payload is sent after its shape descriptor and received only after
the descriptor has been fully received and a buffer of exactly the
declared shape allocated — and the descriptor lengths per transfer site
are 3 (activations), 2 (token ids) and 1 (text length): rank 0 sends
descriptors of lengths 3 and 2 and receives one of length 1; an
interior rank receives 3 and 2 and sends 3 and 2; the final rank
receives 3 and 2 and sends 1. -/
theorem c9_shape_framed_transfers
    (ws rank seqLen embd h0 h1 h2 i0 i1 inLen outLen : Nat) :
    (wellFramed (runSteps 0 ws seqLen embd h0 h1 h2 i0 i1 inLen outLen) ∧
      descLens (runSteps 0 ws seqLen embd h0 h1 h2 i0 i1 inLen outLen) =
        [3, 2, 1]) ∧
    (0 < rank → rank ≠ ws - 1 →
      wellFramed (runSteps rank ws seqLen embd h0 h1 h2 i0 i1 inLen outLen) ∧
      descLens (runSteps rank ws seqLen embd h0 h1 h2 i0 i1 inLen outLen) =
        [3, 2, 3, 2]) ∧
    (0 < rank → rank = ws - 1 →
      wellFramed (runSteps rank ws seqLen embd h0 h1 h2 i0 i1 inLen outLen) ∧
      descLens (runSteps rank ws seqLen embd h0 h1 h2 i0 i1 inLen outLen) =
        [3, 2, 1]) := by
  refine ⟨?_, ?_, ?_⟩
  · rw [runSteps, if_pos rfl]
    exact ⟨by simp [wellFramed], by simp [descLens]⟩
  · intro h1 h2
    rw [runSteps, if_neg (by omega), if_neg h2]
    exact ⟨by simp [wellFramed], by simp [descLens]⟩
  · intro h1 h2
    rw [runSteps, if_neg (by omega), if_pos h2]
    exact ⟨by simp [wellFramed], by simp [descLens]⟩

/-- Witness for C9 in a 3-rank run: the interior rank 1 and the final
rank 2. -/
theorem c9_shape_framed_transfers_witness :
    ((0 : Nat) < 1 ∧ 1 ≠ 3 - 1 ∧
      (wellFramed (runSteps 1 3 4 8 1 4 8 1 4 7 9) ∧
        descLens (runSteps 1 3 4 8 1 4 8 1 4 7 9) = [3, 2, 3, 2])) ∧
    ((0 : Nat) < 2 ∧ 2 = 3 - 1 ∧
      (wellFramed (runSteps 2 3 4 8 1 4 8 1 4 7 9) ∧
        descLens (runSteps 2 3 4 8 1 4 8 1 4 7 9) = [3, 2, 1])) :=
  ⟨⟨by decide, by decide,
    (c9_shape_framed_transfers 3 1 4 8 1 4 8 1 4 7 9).2.1
      (by decide) (by decide)⟩,
   ⟨by decide, by decide,
    (c9_shape_framed_transfers 3 2 4 8 1 4 8 1 4 7 9).2.2
      (by decide) (by decide)⟩⟩

/-- Failures that can interrupt the try body after process-group
initialization (§7 taxonomy in the code's terms): a torch.distributed
send/recv failure, a failure in the model computation, and a
`UnicodeDecodeError` at the decode of the received bytes. -/
inductive PyErr where
  | transport
  | compute
  | encoding
deriving DecidableEq

/-- Execution of the try body's step list under a failure oracle: the
oracle names the step index (if any) at which an exception is raised; the
steps before it run in order.  Returns the executed steps, the value of
the local `received_text` (set to `None` at worker.py line 47 and to the
decoded text by the `rank == 0` decode at line 85), and the in-flight
exception, if any. -/
def execTry : List Step → (Nat → Option PyErr) → Nat → Option (List Char) →
    List Char → List Step × Option (List Char) × Option PyErr
  | [], _, _, rt, _ => ([], rt, none)
  | s :: rest, oracle, idx, rt, tv =>
    match oracle idx with
    | some e => ([], rt, some e)
    | none =>
      let rt2 := match s with
        | Step.decodeStep => some tv
        | _ => rt
      let r := execTry rest oracle (idx + 1) rt2 tv
      (s :: r.1, r.2)

/-- What a rank's `run_worker` call did and what its caller observes. -/
structure RunOutcome where
  trace : List Step
  returned : Option (List Char)
  raised : Option PyErr
deriving DecidableEq

/-- worker.py lines 17-152: the try body's steps for this rank, then the
`finally` block (lines 147-152), which always runs
`dist.destroy_process_group()` and then executes `return received_text`.
By Python semantics a `return` inside `finally` discards any in-flight
exception, so no exception ever escapes `run_worker` (`raised := none`)
and the value returned is whatever `received_text` holds at that point. -/
def run_worker (rank ws seqLen embd h0 h1 h2 i0 i1 inLen outLen : Nat)
    (oracle : Nat → Option PyErr) (tv : List Char) : RunOutcome :=
  let r := execTry (runSteps rank ws seqLen embd h0 h1 h2 i0 i1 inLen outLen)
    oracle 0 none tv
  { trace := r.1 ++ [Step.destroyGroup], returned := r.2.1, raised := none }

lemma execTry_count_le (a : Step) :
    ∀ (steps : List Step) (oracle : Nat → Option PyErr) (idx : Nat)
      (rt : Option (List Char)) (tv : List Char),
      ((execTry steps oracle idx rt tv).1.count a) ≤ steps.count a := by
  intro steps
  induction steps with
  | nil =>
    intro oracle idx rt tv
    simp [execTry]
  | cons s rest ih =>
    intro oracle idx rt tv
    cases h : oracle idx with
    | some e =>
      simp [execTry, h]
    | none =>
      simp only [execTry, h]
      rw [List.count_cons, List.count_cons]
      exact Nat.add_le_add_right (ih oracle (idx + 1) _ tv) _

lemma destroyGroup_count_runSteps
    (rank ws seqLen embd h0 h1 h2 i0 i1 inLen outLen : Nat) :
    (runSteps rank ws seqLen embd h0 h1 h2 i0 i1 inLen outLen).count
      Step.destroyGroup = 0 := by
  rw [List.count_eq_zero]
  rw [runSteps]
  by_cases h : rank = 0
  · rw [if_pos h]
    simp
  · rw [if_neg h]
    by_cases h2 : rank = ws - 1
    · rw [if_pos h2]
      simp
    · rw [if_neg h2]
      simp

/-- C4: on every exit path of a rank's run after process-group
initialization — normal completion or a failure injected at any step
(transport, compute or decode) — the process-group teardown runs, and it
runs exactly once. -/
theorem c4_teardown_exactly_once
    (rank ws seqLen embd h0 h1 h2 i0 i1 inLen outLen : Nat)
    (oracle : Nat → Option PyErr) (tv : List Char) :
    (run_worker rank ws seqLen embd h0 h1 h2 i0 i1 inLen outLen
        oracle tv).trace.count Step.destroyGroup = 1 ∧
    Step.destroyGroup ∈
      (run_worker rank ws seqLen embd h0 h1 h2 i0 i1 inLen outLen
        oracle tv).trace := by
  have hzero : ((execTry
      (runSteps rank ws seqLen embd h0 h1 h2 i0 i1 inLen outLen)
      oracle 0 none tv).1.count Step.destroyGroup) = 0 := by
    have hle := execTry_count_le Step.destroyGroup
      (runSteps rank ws seqLen embd h0 h1 h2 i0 i1 inLen outLen)
      oracle 0 none tv
    rw [destroyGroup_count_runSteps] at hle
    omega
  constructor
  · rw [run_worker]
    simp only [List.count_append, hzero]
    rfl
  · rw [run_worker]
    simp

/-- C5 at the failing input: rank 0 of a 2-rank run with a transport
error injected at the receive of the text length (step index 5).  The
`return` in the `finally` block swallows the exception: the caller of
`run_worker` observes a normal return of `None` — no text and no error —
even though teardown ran. -/
theorem c5_failure_invisible_to_caller :
    (run_worker 0 2 4 8 1 4 8 1 4 7 9
        (fun i => if i = 5 then some PyErr.transport else none) []).returned
      = none ∧
    (run_worker 0 2 4 8 1 4 8 1 4 7 9
        (fun i => if i = 5 then some PyErr.transport else none) []).raised
      = none ∧
    (run_worker 0 2 4 8 1 4 8 1 4 7 9
        (fun i => if i = 5 then some PyErr.transport else none)
        []).trace.count Step.destroyGroup = 1 := by
  refine ⟨by decide, rfl, by decide⟩

/-- Counterexample to C7: with `world_size = 1`, rank 0's try body does
invoke transport — its first transfer step is a send to (nonexistent)
rank 1 — and it contains no generation step. -/
theorem c7_single_rank_uses_transport :
    Step.sendVec 1 [1, 4, 8] ∈ runSteps 0 1 4 8 0 0 0 0 0 7 9 ∧
    Step.generateStep ∉ runSteps 0 1 4 8 0 0 0 0 0 7 9 := by
  decide

/-- C7 (amended): with `world_size = 1` the code takes the ordinary
rank-0 path with no special case: rank 0 owns all layers
(`[0, total_layers)`), runs its layer computation, then attempts the
usual transfers — sending to nonexistent rank 1 and receiving from rank
`world_size - 1 = 0`, itself — and never performs a generation step; the
only decode is rank 0's usual decode of a received buffer. -/
theorem c7_single_rank_path
    (tl seqLen embd h0 h1 h2 i0 i1 inLen outLen : Nat) :
    partRange tl 1 0 = ⟨0, tl⟩ ∧
    runSteps 0 1 seqLen embd h0 h1 h2 i0 i1 inLen outLen =
      [Step.computeLayers,
       Step.sendVec 1 [1, seqLen, embd], Step.sendTensor 1 [1, seqLen, embd],
       Step.sendVec 1 [1, seqLen], Step.sendTensor 1 [1, seqLen],
       Step.recvVec 0 [inLen], Step.allocTensor [inLen],
       Step.recvTensor 0 [inLen], Step.decodeStep] ∧
    Step.generateStep ∉ runSteps 0 1 seqLen embd h0 h1 h2 i0 i1 inLen outLen := by
  refine ⟨?_, ?_, ?_⟩
  · rw [partRange]
    simp [layers_per_node]
  · rw [runSteps, if_pos rfl]
  · rw [runSteps, if_pos rfl]
    simp

/-- The arguments of the `model.generate` call at worker.py lines
110-118: `max_length = recv_input_ids.shape[1] + 300`, `do_sample=True`,
`top_k=50`, `pad_token_id=tokenizer.eos_token_id`.  `max_new_tokens` and
`temperature` are keyword arguments of the collaborator's generate
signature that the call site does not pass, recorded as `none`. -/
structure GenerateCall where
  max_length : Nat
  do_sample : Bool
  top_k : Nat
  pad_token_id : Nat
  max_new_tokens : Option Nat
  temperature : Option Nat
deriving DecidableEq

/-- The generate-call arguments the final rank builds for a received
prompt of `promptLen` tokens (worker.py lines 110-118).  Note that
`run_worker`'s signature (line 17) is `(rank, world_size, input_data)`:
no generation configuration reaches this call site, so its arguments
depend on nothing but the received prompt length and the tokenizer's
end-of-sequence id. -/
def generateCallArgs (promptLen eosId : Nat) : GenerateCall :=
  { max_length := promptLen + 300, do_sample := true, top_k := 50,
    pad_token_id := eosId, max_new_tokens := none, temperature := none }

/-- Modelled from the spec (§6): the generation configuration
`{max_new_tokens, do_sample, top_k, temperature}` that the claim says is
supplied to the run and passed through verbatim to the final rank's
generate call.  Temperature is kept abstract as a `Nat` key since only
its presence or absence matters here. -/
structure GenConfig where
  max_new_tokens : Nat
  do_sample : Bool
  top_k : Nat
  temperature : Nat
deriving DecidableEq

/-- Counterexample to C8: for the supplied configuration
`{max_new_tokens := 10, do_sample := false, top_k := 7, temperature := 1}`
and a 5-token prompt, the code's generate call does not carry the
configuration verbatim: it passes `do_sample=True` and `top_k=50`
regardless, and passes no `max_new_tokens` and no `temperature` at
all. -/
theorem c8_config_not_passed_through :
    ¬ ((generateCallArgs 5 50256).do_sample =
          (⟨10, false, 7, 1⟩ : GenConfig).do_sample ∧
       (generateCallArgs 5 50256).top_k =
          (⟨10, false, 7, 1⟩ : GenConfig).top_k ∧
       (generateCallArgs 5 50256).max_new_tokens =
          some (⟨10, false, 7, 1⟩ : GenConfig).max_new_tokens ∧
       (generateCallArgs 5 50256).temperature =
          some (⟨10, false, 7, 1⟩ : GenConfig).temperature) := by
  decide

/-- C8 (amended): `run_worker` accepts no generation configuration; the
final rank's generate call uses the fixed arguments `do_sample=True`,
`top_k=50`, `pad_token_id = eos`, `max_length = received prompt length +
300`, passing no `max_new_tokens` and no `temperature` — identical
sampling arguments for every input — and the autoregressive decode loop
is bounded by `max_length`, i.e. by 300 tokens beyond the received
prompt. -/
theorem c8_fixed_generate_args (promptLen eosId p2 e2 : Nat) :
    generateCallArgs promptLen eosId =
      { max_length := promptLen + 300, do_sample := true, top_k := 50,
        pad_token_id := eosId, max_new_tokens := none,
        temperature := none } ∧
    (generateCallArgs promptLen eosId).max_length - promptLen = 300 ∧
    (generateCallArgs promptLen eosId).do_sample =
      (generateCallArgs p2 e2).do_sample ∧
    (generateCallArgs promptLen eosId).top_k =
      (generateCallArgs p2 e2).top_k ∧
    (generateCallArgs promptLen eosId).max_new_tokens =
      (generateCallArgs p2 e2).max_new_tokens ∧
    (generateCallArgs promptLen eosId).temperature =
      (generateCallArgs p2 e2).temperature := by
  refine ⟨rfl, ?_, rfl, rfl, rfl, rfl⟩
  simp [generateCallArgs]

/-!
Dataflow of the pipeline over an abstract model-shard collaborator: the
layer functions `model.transformer.h[i]`, the id-level
`model.generate` (which also absorbs the sampling randomness of
`do_sample=True`, held fixed between compared runs) and
`tokenizer.decode`.
-/

/-- worker.py lines 106-107 (and 57-58): the loop
`for i in range(start_layer, end_layer): h = model.transformer.h[i](h)[0]`. -/
def applyLayers {H : Type} (layer : Nat → H → H) (startL endL : Nat)
    (h : H) : H :=
  (List.range' startL (endL - startL)).foldl (fun acc i => layer i acc) h

/-- worker.py lines 87-146, forwarding branch: an interior rank applies
its owned layers to the received hidden states and forwards the pair
(hidden states, token ids); lines 143-146 send `recv_input_ids`
verbatim, so the token ids are forwarded unchanged. -/
def interiorStage {H : Type} (layer : Nat → H → H) (tl ws r : Nat)
    (inp : H × List Nat) : H × List Nat :=
  (applyLayers layer (partRange tl ws r).start_layer
      (partRange tl ws r).end_layer inp.1,
   inp.2)

/-- The (hidden states, token ids) pair the final rank receives after
the payload sent by rank 0 traverses interior ranks `1 .. ws - 2`. -/
def finalRankInput {H : Type} (layer : Nat → H → H) (tl ws : Nat)
    (inp : H × List Nat) : H × List Nat :=
  (List.range' 1 (ws - 2)).foldl
    (fun acc r => interiorStage layer tl ws r acc) inp

/-- worker.py lines 106-129 at the final rank: it applies its owned
layers to the received hidden states (lines 106-107; the result is bound
to `recv_hidden_states` and never read again), then generates from the
received token ids alone (line 112 passes `input_ids=recv_input_ids`)
and decodes the generated ids (lines 119-121). -/
def finalRankText {H : Type} (layer : Nat → H → H)
    (generateIds : List Nat → List Nat) (decodeIds : List Nat → List Char)
    (tl ws : Nat) (inp : H × List Nat) : List Char :=
  let _hidden := applyLayers layer (partRange tl ws (ws - 1)).start_layer
      (partRange tl ws (ws - 1)).end_layer inp.1
  decodeIds (generateIds inp.2)

/-- The text rank 0 receives back: the final rank's generated text for
the hidden-state payload and token ids that entered the pipeline at
rank 1. -/
def rank0ReceivedText {H : Type} (layer : Nat → H → H)
    (generateIds : List Nat → List Nat) (decodeIds : List Nat → List Char)
    (tl ws : Nat) (h : H) (ids : List Nat) : List Char :=
  finalRankText layer generateIds decodeIds tl ws
    (finalRankInput layer tl ws (h, ids))

lemma finalRankInput_snd {H : Type} (layer : Nat → H → H) (tl ws : Nat) :
    ∀ (l : List Nat) (inp : H × List Nat),
      (l.foldl (fun acc r => interiorStage layer tl ws r acc) inp).2 = inp.2 := by
  intro l
  induction l with
  | nil => intro inp; rfl
  | cons x xs ih =>
    intro inp
    rw [List.foldl_cons, ih]
    rfl

/-- C10: the text delivered at rank 0 is independent of every
hidden-state payload moving through the pipeline — interior ranks
forward the token ids unchanged, and the final rank's generate consumes
only the received token ids while the hidden states it computed are
never used — so two runs differing only in the hidden-state payload
(token ids, model functions and sampling randomness held equal) deliver
identical text. -/
theorem c10_text_independent_of_hidden_states {H : Type}
    (layer : Nat → H → H) (generateIds : List Nat → List Nat)
    (decodeIds : List Nat → List Char) (tl ws : Nat) (ids : List Nat) :
    (∀ h : H, (finalRankInput layer tl ws (h, ids)).2 = ids) ∧
    (∀ h h2 : H,
      rank0ReceivedText layer generateIds decodeIds tl ws h ids =
        rank0ReceivedText layer generateIds decodeIds tl ws h2 ids) := by
  constructor
  · intro h
    exact finalRankInput_snd layer tl ws _ _
  · intro h h2
    rw [rank0ReceivedText, rank0ReceivedText, finalRankText, finalRankText]
    rw [show (finalRankInput layer tl ws (h, ids)).2 = ids from
      finalRankInput_snd layer tl ws _ _]
    rw [show (finalRankInput layer tl ws (h2, ids)).2 = ids from
      finalRankInput_snd layer tl ws _ _]

end Formation
